import Mathlib

/-!
Verification of the scraper core (`src/scraper.py`).

The pipeline under verification is pure tree-processing code: the external
HTML parser (selectolax), the HTTP client and the browser engine are
capability providers.  We embed the parsed markup as a rose tree (`Node`)
and translate each method of `Scraper` into a Lean function over that
tree.  Effectful collaborators (the static fetch, the two browser-render
calls) are passed in as `Except`-valued outcomes, so `scrape`'s branching
and fallback logic is embedded faithfully while network and browser
behaviour stays abstract.

Python strings are modelled as Lean `String`s; Python slicing, `strip`,
`split` and `re.sub(r'\s+', ' ', ...)` are modelled by the explicit
character-list functions below (`strTake`, `strTrim`, `normalizeWs`,
`wordsOf`), which operate on code points exactly as Python does.
-/

namespace ScraperModel

/-- A node of the parsed markup tree: an element with a tag name, an
attribute list and children, or a text node.  Models the tree produced by
`selectolax.parser.HTMLParser`; the parser lowercases tag and attribute
names, so the embedded documents use lowercase names throughout. -/
inductive Node where
  | elem (tag : String) (attrs : List (String × String)) (children : List Node)
  | text (s : String)

mutual

def nodeDecEq : (a b : Node) → Decidable (a = b)
  | .text s, .text t =>
    if h : s = t then .isTrue (by rw [h]) else .isFalse (by intro hc; cases hc; exact h rfl)
  | .text _, .elem _ _ _ => .isFalse (by intro hc; cases hc)
  | .elem _ _ _, .text _ => .isFalse (by intro hc; cases hc)
  | .elem t1 a1 c1, .elem t2 a2 c2 =>
    if ht : t1 = t2 then
      if ha : a1 = a2 then
        match nodeListDecEq c1 c2 with
        | .isTrue hc => .isTrue (by rw [ht, ha, hc])
        | .isFalse hc => .isFalse (by intro he; cases he; exact hc rfl)
      else .isFalse (by intro he; cases he; exact ha rfl)
    else .isFalse (by intro he; cases he; exact ht rfl)

def nodeListDecEq : (as bs : List Node) → Decidable (as = bs)
  | [], [] => .isTrue rfl
  | [], _ :: _ => .isFalse (by intro h; cases h)
  | _ :: _, [] => .isFalse (by intro h; cases h)
  | a :: as, b :: bs =>
    match nodeDecEq a b with
    | .isTrue h1 =>
      match nodeListDecEq as bs with
      | .isTrue h2 => .isTrue (by rw [h1, h2])
      | .isFalse h2 => .isFalse (by intro h; cases h; exact h2 rfl)
    | .isFalse h1 => .isFalse (by intro h; cases h; exact h1 rfl)

end

instance : DecidableEq Node := nodeDecEq

/-- First value bound to an attribute name, if any (models
`node.attributes.get(name)` for attributes that carry a value). -/
def getAttr (attrs : List (String × String)) (name : String) : Option String :=
  match attrs with
  | [] => none
  | (k, v) :: rest => if k = name then some v else getAttr rest name

/-- `attributes.get(name, "")` — attribute value with `""` default. -/
def getAttrD (attrs : List (String × String)) (name : String) : String :=
  (getAttr attrs name).getD ""

/-- Does character list `ns` occur at the head of `hay`? -/
def startsWithChars : List Char → List Char → Bool
  | [], _ => true
  | _ :: _, [] => false
  | a :: as, b :: bs => a == b && startsWithChars as bs

/-- Does `ns` occur as a contiguous sublist of `hay`? -/
def subChars (ns : List Char) : List Char → Bool
  | [] => ns.isEmpty
  | b :: bs => startsWithChars ns (b :: bs) || subChars ns bs

/-- Python's `needle in hay` substring test. -/
def containsSub (hay needle : String) : Bool :=
  subChars needle.data hay.data

/-- Python's `s.startswith(p)`. -/
def startsWithStr (s p : String) : Bool :=
  startsWithChars p.data s.data

/-- Python's `s[:n]` slice on code points. -/
def strTake (s : String) (n : Nat) : String :=
  String.mk (s.data.take n)

/-- Characters stripped by Python's `str.strip()` (ASCII whitespace). -/
def trimChars (l : List Char) : List Char :=
  ((l.dropWhile Char.isWhitespace).reverse.dropWhile Char.isWhitespace).reverse

/-- Python's `s.strip()`. -/
def strTrim (s : String) : String :=
  String.mk (trimChars s.data)

/-- Collapse every maximal run of whitespace to a single space; the flag
records whether the previous character was whitespace. -/
def collapseAux : Bool → List Char → List Char
  | _, [] => []
  | prevWs, c :: cs =>
    if c.isWhitespace then
      if prevWs then collapseAux true cs else ' ' :: collapseAux true cs
    else c :: collapseAux false cs

/-- `re.sub(r'\s+', ' ', s.strip())` — the text normalisation applied by
`_extract_section` (strip, then collapse whitespace runs). -/
def normalizeWs (s : String) : String :=
  String.mk (collapseAux false (trimChars s.data))

/-- Accumulate the words of a character stream (Python's `str.split()`:
split on whitespace runs, dropping empty pieces).  `acc` holds the
characters of the current word in reverse. -/
def wordsAux : List Char → List Char → List String
  | acc, [] => if acc.isEmpty then [] else [String.mk acc.reverse]
  | acc, c :: cs =>
    if c.isWhitespace then
      if acc.isEmpty then wordsAux [] cs
      else String.mk acc.reverse :: wordsAux [] cs
    else wordsAux (c :: acc) cs

/-- Python's `s.split()`. -/
def wordsOf (s : String) : List String :=
  wordsAux [] s.data

mutual

/-- `node.text(deep=True)`: concatenation of all descendant text nodes in
document order. -/
def nodeText : Node → String
  | .text s => s
  | .elem _ _ cs => nodesText cs

def nodesText : List Node → String
  | [] => ""
  | c :: cs => nodeText c ++ nodesText cs

end

mutual

/-- All nodes of the subtree rooted at `n`, itself first, in document
(pre-order) order — the traversal underlying `parser.css(...)`. -/
def allNodes : Node → List Node
  | .text s => [.text s]
  | .elem t a cs => .elem t a cs :: allNodesList cs

def allNodesList : List Node → List Node
  | [] => []
  | c :: cs => allNodes c ++ allNodesList cs

end

/-- Tag of an element node. -/
def nodeTag : Node → Option String
  | .elem t _ _ => some t
  | .text _ => none

/-- Attribute list of an element node. -/
def nodeAttrs : Node → List (String × String)
  | .elem _ a _ => a
  | .text _ => []

/-- `parser.css_first(...)` restricted to a tag-name selector: first
element with the given tag, in document order. -/
def firstTag (tag : String) (doc : Node) : Option Node :=
  (allNodes doc).find? (fun n => nodeTag n = some tag)

/-- Elements matching a Boolean predicate, in document order
(`parser.css(...)`). -/
def docCss (p : Node → Bool) (doc : Node) : List Node :=
  (allNodes doc).filter p

/-- First element matching a predicate (`parser.css_first(...)`). -/
def docCssFirst (p : Node → Bool) (doc : Node) : Option Node :=
  (allNodes doc).find? p

/-- Elements matching a predicate strictly below `n`, in document order
(`node.css(...)`: a query scoped to a node searches its descendants). -/
def nodeCss (p : Node → Bool) : Node → List Node
  | .text _ => []
  | .elem _ _ cs => (allNodesList cs).filter p

/-- `parser.body`: myhtml caches the body pointer at parse time, so this
is the first `body` element of the *original* document tree. -/
def findBody (doc : Node) : Option Node :=
  (allNodes doc).find? (fun n => nodeTag n = some "body")

/-- Does the tag match the predicate selector `main` / `article` / ...? -/
def tagIs (t : String) (n : Node) : Bool :=
  nodeTag n = some t

/-! ## Result data model (`scrape`'s returned dictionaries) -/

/-- The `meta` dictionary built by `_extract_meta_static` /
`_extract_meta_js`. -/
structure Metadata where
  title : String
  description : String
  language : String
  canonical : Option String
deriving DecidableEq, Repr

/-- The `content` dictionary of a section. -/
structure ContentBlock where
  headings : List String
  text : String
  links : List (String × String)
  images : List (String × String)
  lists : List (List String)
  tables : List (List (List String))
deriving DecidableEq, Repr

/-- One entry of the `sections` list produced by `_extract_section` /
`_parse_sections`.  `links` entries are `(text, href)` pairs, `images`
entries are `(src, alt)` pairs. -/
structure Section where
  id : String
  type : String
  label : String
  sourceUrl : String
  content : ContentBlock
  rawHtml : String
  truncated : Bool
deriving DecidableEq, Repr

/-- An entry of the `errors` list: `{message, phase}`. -/
structure ScrapeError where
  message : String
  phase : String
deriving DecidableEq, Repr

/-- The `interactions` dictionary: `{clicks, scrolls, pages}`. -/
structure Interactions where
  clicks : List String
  scrolls : Nat
  pages : List String
deriving DecidableEq, Repr

/-- The document returned by `scrape` (the `scrapedAt` timestamp, a pure
clock read, is omitted). -/
structure ScrapeResult where
  url : String
  meta : Metadata
  sections : List Section
  interactions : Interactions
  errors : List ScrapeError
deriving DecidableEq, Repr

/-! ## External collaborators -/

/-- Simplified model of `urllib.parse.urljoin` (Python standard library,
an external collaborator).  No claim proved in this file depends on its
exact output — only on resolution being a function of `(base, rel)`. -/
def urljoinModel (base rel : String) : String :=
  if rel.isEmpty then base
  else if startsWithStr rel "http://" || startsWithStr rel "https://" then rel
  else base ++ "/" ++ rel

/-- Model of `HTMLParser("")`: the HTML5 tree-construction algorithm
always produces the `html`/`head`/`body` skeleton, even for empty input. -/
def emptyDoc : Node :=
  .elem "html" [] [.elem "head" [] [], .elem "body" [] []]

/-! ## Noise removal (`_parse_sections`, noise selector loop) -/

/-- The noise predicate encoded by the nine `noise_selectors` of
`_parse_sections`: `[class*=...]` for cookie/banner/modal/popup/overlay
but `[id*=...]` only for cookie/banner/modal/popup — the `overlay`
substring is never checked against `id`.  CSS attribute substring
matching is literal (case-sensitive). -/
def noiseMatch (attrs : List (String × String)) : Bool :=
  (match getAttr attrs "class" with
   | some c =>
     containsSub c "cookie" || containsSub c "banner" || containsSub c "modal" ||
       containsSub c "popup" || containsSub c "overlay"
   | none => false) ||
  (match getAttr attrs "id" with
   | some i =>
     containsSub i "cookie" || containsSub i "banner" || containsSub i "modal" ||
       containsSub i "popup"
   | none => false)

/-- Noise predicate lifted to nodes (text nodes never match a selector). -/
def noiseOf : Node → Bool
  | .elem _ a _ => noiseMatch a
  | .text _ => false

mutual

/-- Result of the nine sequential `elem.decompose()` passes, as a single
top-down filter: a node is removed exactly when it, or one of its
ancestors, matches `noiseMatch` — running the nine passes one after the
other on the mutating tree removes exactly the same final set of nodes,
because each predicate reads only the node's own attributes. -/
def cleanNode : Node → Option Node
  | .text s => some (.text s)
  | .elem t a cs => if noiseMatch a then none else some (.elem t a (cleanList cs))

def cleanList : List Node → List Node
  | [] => []
  | c :: cs =>
    match cleanNode c with
    | some c2 => c2 :: cleanList cs
    | none => cleanList cs

end

/-- Element nodes remaining after noise removal (document order). -/
def cleanedNodes (doc : Node) : List Node :=
  match cleanNode doc with
  | some c => allNodes c
  | none => []

/-! ## Metadata extraction (`_extract_meta_static`, `_extract_meta_js`) -/

/-- Selector `meta[property="og:title"]`. -/
def isOgTitle (n : Node) : Bool :=
  tagIs "meta" n && getAttr (nodeAttrs n) "property" == some "og:title"

/-- Selector `meta[property="og:description"]`. -/
def isOgDesc (n : Node) : Bool :=
  tagIs "meta" n && getAttr (nodeAttrs n) "property" == some "og:description"

/-- Selector `meta[name="description"]`. -/
def isMetaDesc (n : Node) : Bool :=
  tagIs "meta" n && getAttr (nodeAttrs n) "name" == some "description"

/-- Selector `link[rel="canonical"]`. -/
def isCanonicalLink (n : Node) : Bool :=
  tagIs "link" n && getAttr (nodeAttrs n) "rel" == some "canonical"

/-- `Scraper._extract_meta_static`, lines 251-289, over an already-parsed
document.  Field-by-field mirror of the dictionary mutations: title from
`<title>` (stripped) then overridden by a truthy `og:title` content;
description from `meta[name="description"]` then overridden by a truthy
`og:description` content; language from the first two characters of a
truthy root `lang`; canonical from a truthy `link[rel="canonical"]`
href. -/
def extractMetaStatic (doc : Node) : Metadata :=
  let title0 :=
    match firstTag "title" doc with
    | some t => strTrim (nodeText t)
    | none => ""
  let title :=
    match docCssFirst isOgTitle doc with
    | some og =>
      match getAttr (nodeAttrs og) "content" with
      | some c => if c.isEmpty then title0 else c
      | none => title0
    | none => title0
  let desc0 :=
    match docCssFirst isMetaDesc doc with
    | some d =>
      match getAttr (nodeAttrs d) "content" with
      | some c => if c.isEmpty then "" else c
      | none => ""
    | none => ""
  let description :=
    match docCssFirst isOgDesc doc with
    | some og =>
      match getAttr (nodeAttrs og) "content" with
      | some c => if c.isEmpty then desc0 else c
      | none => desc0
    | none => desc0
  let language :=
    match firstTag "html" doc with
    | some h =>
      match getAttr (nodeAttrs h) "lang" with
      | some l => if l.isEmpty then "en" else strTake l 2
      | none => "en"
    | none => "en"
  let canonical :=
    match docCssFirst isCanonicalLink doc with
    | some l =>
      match getAttr (nodeAttrs l) "href" with
      | some h => if h.isEmpty then none else some h
      | none => none
    | none => none
  { title := title, description := description, language := language, canonical := canonical }

/-- Text of the first `<title>` element ("" when absent). -/
def titleTextOf (doc : Node) : String :=
  match firstTag "title" doc with
  | some t => nodeText t
  | none => ""

/-- `Scraper._extract_meta_js`, lines 291-326, read against the rendered
DOM.  `page.title()` returns `document.title`, which per the HTML
standard strips and collapses ASCII whitespace in the title text; the
description is read from `meta[name="description"]` only — this path
never consults `og:title` or `og:description`.  Language and canonical
are read with the same selectors as the static path.  (Each Playwright
lookup failure is swallowed, leaving the field at its default; a missing
element likewise leaves the default, so the embedded function is
total.) -/
def extractMetaJs (doc : Node) : Metadata :=
  { title := normalizeWs (titleTextOf doc),
    description :=
      match docCssFirst isMetaDesc doc with
      | some d =>
        match getAttr (nodeAttrs d) "content" with
        | some c => if c.isEmpty then "" else c
        | none => ""
      | none => "",
    language :=
      match firstTag "html" doc with
      | some h =>
        match getAttr (nodeAttrs h) "lang" with
        | some l => if l.isEmpty then "en" else strTake l 2
        | none => "en"
      | none => "en",
    canonical :=
      match docCssFirst isCanonicalLink doc with
      | some l =>
        match getAttr (nodeAttrs l) "href" with
        | some h => if h.isEmpty then none else some h
        | none => none
      | none => none }

/-! ## Fetch strategy selection (`scrape`, lines 57-73) -/

/-- `parser.body.text() if parser.body else ""` (line 62). -/
def bodyTextOf (doc : Node) : String :=
  match findBody doc with
  | some b => nodeText b
  | none => ""

/-- `Scraper._has_main_content`, lines 98-108: when a `main` element
exists, its stripped text length alone decides (an `article` is only
consulted when no `main` exists at all). -/
def hasMainContent (doc : Node) : Bool :=
  match firstTag "main" doc with
  | some m => 100 < (strTrim (nodeText m)).length
  | none =>
    match firstTag "article" doc with
    | some a => 100 < (strTrim (nodeText a)).length
    | none => false

/-- The three conceivable continuations after a successful static fetch. -/
inductive FetchPath where
  | staticOnly
  | fullRender
  | renderWithInteractions
deriving DecidableEq, Repr

/-- The decision on line 65: full render (`_js_scrape`) when the stripped
body text is under 200 characters or `_has_main_content` is false,
otherwise the interaction-simulation render
(`_js_scrape_for_interactions`).  The static result is never returned
directly. -/
def selectPath (doc : Node) : FetchPath :=
  if (strTrim (bodyTextOf doc)).length < 200 || !hasMainContent doc then .fullRender
  else .renderWithInteractions

/-! ## Section classification (`_determine_type`, `_derive_label`) -/

/-- `Scraper._determine_type`, lines 495-524: the first matching rule
wins, tested against the lowered tag and lowered class/id substrings. -/
def determineType (tagName : String) (attrs : List (String × String)) : String :=
  let tagLower := tagName.toLower
  let classAttr := (getAttrD attrs "class").toLower
  let idAttr := (getAttrD attrs "id").toLower
  if tagLower == "header" || containsSub classAttr "header" || containsSub idAttr "header" then
    "nav"
  else if tagLower == "nav" || containsSub classAttr "nav" || containsSub idAttr "nav" then
    "nav"
  else if tagLower == "footer" || containsSub classAttr "footer" || containsSub idAttr "footer" then
    "footer"
  else if tagLower == "article" then
    "section"
  else if containsSub classAttr "hero" || containsSub idAttr "hero" ||
      (tagLower == "section" && containsSub (classAttr ++ idAttr) "hero") then
    "hero"
  else if containsSub classAttr "faq" || containsSub idAttr "faq" then
    "faq"
  else if containsSub classAttr "pricing" || containsSub idAttr "pricing" then
    "pricing"
  else if containsSub classAttr "grid" || containsSub idAttr "grid" then
    "grid"
  else if containsSub classAttr "list" || containsSub idAttr "list" then
    "list"
  else
    "section"

/-- Selector `h1, h2, h3`. -/
def isHeading3 (n : Node) : Bool :=
  tagIs "h1" n || tagIs "h2" n || tagIs "h3" n

/-- Selector `h1, h2, h3, h4, h5, h6`. -/
def isHeading6 (n : Node) : Bool :=
  isHeading3 n || tagIs "h4" n || tagIs "h5" n || tagIs "h6" n

/-- Selector `header, nav, main, section, footer, article`. -/
def isLandmark (n : Node) : Bool :=
  tagIs "header" n || tagIs "nav" n || tagIs "main" n || tagIs "section" n ||
    tagIs "footer" n || tagIs "article" n

/-- `" ".join(words)`. -/
def joinWords : List String → String
  | [] => ""
  | [w] => w
  | w :: ws => w ++ " " ++ joinWords ws

/-- `Scraper._derive_label`, lines 526-543: first non-empty `h1`-`h3` text
truncated to 50 characters, else the first 7 words of the flattened text
truncated to 50, else the capitalized tag name. -/
def deriveLabel (n : Node) : String :=
  let hs := (nodeCss isHeading3 n).filterMap fun h =>
    let l := strTrim (nodeText h)
    if l.isEmpty then none else some l
  match hs with
  | l :: _ => strTake l 50
  | [] =>
    let ws := (wordsOf (strTrim (nodeText n))).take 7
    if ws.isEmpty then
      (match nodeTag n with
       | some t => t.toLower
       | none => "section").capitalize
    else strTake (joinWords ws) 50

/-! ## Section extraction (`_extract_section`) -/

/-- Attribute rendering used by the serializer model. -/
def renderAttrs : List (String × String) → String
  | [] => ""
  | (k, v) :: rest => " " ++ k ++ "=\x22" ++ v ++ "\x22" ++ renderAttrs rest

mutual

/-- Model of `elem.html`, selectolax's serialization of the subtree.  The
claims about the raw snapshot depend only on the serialized string and
its length, not on entity escaping or void-element forms, which this
model omits. -/
def renderNode : Node → String
  | .text s => s
  | .elem t a cs => "<" ++ t ++ renderAttrs a ++ ">" ++ renderList cs ++ "</" ++ t ++ ">"

def renderList : List Node → String
  | [] => ""
  | c :: cs => renderNode c ++ renderList cs

end

/-- `elem.tag.lower() if hasattr(elem, 'tag') else 'div'` (line 412). -/
def sectionTagName (n : Node) : String :=
  match nodeTag n with
  | some t => t.toLower
  | none => "div"

/-- `Scraper._extract_section`, lines 406-493, for a non-null element
(the Python function returns `None` exactly when handed a falsy element;
the callers in `_parse_sections` are embedded so that such calls are
skipped before reaching this function). -/
def extractSection (n : Node) (baseUrl : String) (idx : Nat) : Section :=
  let sectionType := determineType (sectionTagName n) (nodeAttrs n)
  let label := deriveLabel n
  let headings := (nodeCss isHeading6 n).filterMap fun h =>
    let t := strTrim (nodeText h)
    if t.isEmpty then none else some t
  let text := normalizeWs (nodeText n)
  let links := (nodeCss (tagIs "a") n).filterMap fun a =>
    match getAttr (nodeAttrs a) "href" with
    | some h => if h.isEmpty then none else some (strTrim (nodeText a), urljoinModel baseUrl h)
    | none => none
  let images := (nodeCss (tagIs "img") n).filterMap fun im =>
    match getAttr (nodeAttrs im) "src" with
    | some s =>
      if s.isEmpty then none else some (urljoinModel baseUrl s, getAttrD (nodeAttrs im) "alt")
    | none => none
  let lists := (nodeCss (fun m => tagIs "ul" m || tagIs "ol" m) n).filterMap fun ul =>
    let items := (nodeCss (tagIs "li") ul).filterMap fun li =>
      let t := strTrim (nodeText li)
      if t.isEmpty then none else some t
    if items.isEmpty then none else some items
  let tables := (nodeCss (tagIs "table") n).filterMap fun tb =>
    let rows := (nodeCss (tagIs "tr") tb).filterMap fun r =>
      let cells := (nodeCss (fun c => tagIs "td" c || tagIs "th" c) r).map fun c =>
        strTrim (nodeText c)
      if cells.isEmpty then none else some cells
    if rows.isEmpty then none else some rows
  let rawHtml0 := renderNode n
  { id := sectionType ++ "-" ++ Nat.repr idx,
    type := sectionType,
    label := label,
    sourceUrl := baseUrl,
    content :=
      { headings := headings.take 10,
        text := if 5000 < text.length then strTake text 5000 else text,
        links := links.take 50,
        images := images.take 20,
        lists := lists.take 10,
        tables := tables },
    rawHtml := if 2000 < rawHtml0.length then strTake rawHtml0 2000 ++ "..." else rawHtml0,
    truncated := 2000 < rawHtml0.length }

/-! ## Section segmentation (`_parse_sections`) -/

/-- The placeholder section returned for empty markup (lines 330-347). -/
def emptySection (baseUrl : String) : Section :=
  { id := "empty-0",
    type := "unknown",
    label := "Empty Content",
    sourceUrl := baseUrl,
    content :=
      { headings := [], text := "", links := [], images := [], lists := [], tables := [] },
    rawHtml := "",
    truncated := false }

mutual

/-- `heading.parent` for every `h1`/`h2`/`h3` of the subtree, in document
order (lines 377-382); the parent of the tree's own root is `none`, and
appending `None` to `section_elements` is preserved as a `none` entry. -/
def headingParentsNode (parent : Option Node) : Node → List (Option Node)
  | .text _ => []
  | .elem t a cs =>
    (if isHeading3 (.elem t a cs) then [parent] else []) ++
      headingParentsList (some (.elem t a cs)) cs

def headingParentsList (p : Option Node) : List Node → List (Option Node)
  | [] => []
  | c :: cs => headingParentsNode p c ++ headingParentsList p cs

end

/-- All `h1`-`h3` parents of a document, in document order. -/
def headingParents (doc : Node) : List (Option Node) :=
  headingParentsNode none doc

/-- Children dropped (the state of a recursively decomposed element). -/
def stripKids : Node → Node
  | .elem t a _ => .elem t a []
  | .text s => .text s

/-- `parser.body` as read after the noise-removal passes.  myhtml caches
the body pointer at parse time, so the property still answers after the
body was decomposed: if the body survived cleaning this is the cleaned
body (its noisy descendants were unlinked in place); if the body itself
was decomposed, the cached node remains, recursively emptied of
children. -/
def bodyFallback (doc : Node) : Option Node :=
  match cleanNode doc with
  | some c =>
    match (allNodes c).find? (fun n => nodeTag n = some "body") with
    | some b => some b
    | none => (findBody doc).map stripKids
  | none => (findBody doc).map stripKids

/-- The `for idx, elem in enumerate(section_elements[:20])` loop (lines
391-394): `idx` counts every candidate, including `None` entries, and
`_extract_section` returns a section for every non-null element. -/
def numberFrom (baseUrl : String) : Nat → List (Option Node) → List Section
  | _, [] => []
  | i, none :: rest => numberFrom baseUrl (i + 1) rest
  | i, some e :: rest => extractSection e baseUrl i :: numberFrom baseUrl (i + 1) rest

/-- `Scraper._parse_sections`, lines 328-404: placeholder for blank
markup; otherwise noise removal, then the landmark pass, the
heading-parent fallback, the body fallback, the 20-section cap, and the
final ensure-at-least-one-section body guard. -/
def parseSections (html : String) (doc : Node) (baseUrl : String) : List Section :=
  if (strTrim html).isEmpty then [emptySection baseUrl]
  else
    let cleaned := cleanNode doc
    let landmarks :=
      match cleaned with
      | some c => docCss isLandmark c
      | none => []
    let sectionElements : List (Option Node) :=
      if landmarks.isEmpty then
        match cleaned with
        | some c => headingParents c
        | none => []
      else landmarks.map some
    let sectionElements :=
      if sectionElements.isEmpty then
        match bodyFallback doc with
        | some b => [some b]
        | none => []
      else sectionElements
    let sections := numberFrom baseUrl 0 (sectionElements.take 20)
    if sections.isEmpty then
      match bodyFallback doc with
      | some b => [extractSection b baseUrl 0]
      | none => []
    else sections

/-! ## The scrape entry point (`scrape`, lines 44-96) -/

/-- The value returned by `_js_scrape` / `_js_scrape_for_interactions`
when the call does not raise: the rendered markup, its parse, the
metadata, any render-phase errors recorded in-band, and the interaction
log.  A raised exception is the `.error` case of the surrounding
`Except`. -/
structure JsOutcome where
  html : String
  doc : Node
  meta : Metadata
  errors : List ScrapeError
  interactions : Interactions

/-- The interaction log initialised at the top of `scrape` (lines
50-54). -/
def initialInteractions (url : String) : Interactions :=
  { clicks := [], scrolls := 0, pages := [url] }

/-- The `except` arm of `scrape` (lines 74-84): record a fetch-phase
error, attempt `_js_scrape`, and on a second failure fall back to empty
markup with default metadata. -/
def scrapeFallback (url e : String) (jsFullResult : Except String JsOutcome) : ScrapeResult :=
  let fetchErr : ScrapeError := ⟨"Static scrape failed: " ++ e, "fetch"⟩
  match jsFullResult with
  | .ok r =>
    { url := url, meta := r.meta, sections := parseSections r.html r.doc url,
      interactions := r.interactions, errors := [fetchErr] ++ r.errors }
  | .error e2 =>
    { url := url, meta := extractMetaStatic emptyDoc,
      sections := parseSections "" emptyDoc url,
      interactions := initialInteractions url,
      errors := [fetchErr, ⟨"JS scrape failed: " ++ e2, "render"⟩] }

/-- `Scraper.scrape`, lines 44-96, with the three effectful collaborators
passed as outcomes: the static fetch (markup and its parse), and the two
browser calls.  A successful static fetch dispatches on `selectPath`; an
exception anywhere inside the `try` block (static fetch or the chosen
render call) lands in the fallback arm, which retries `_js_scrape`. -/
def scrape (url : String) (staticResult : Except String (String × Node))
    (jsFullResult jsInterResult : Except String JsOutcome) : ScrapeResult :=
  match staticResult with
  | .ok (_, doc) =>
    match (if selectPath doc = FetchPath.fullRender then jsFullResult else jsInterResult) with
    | .ok r =>
      { url := url, meta := r.meta, sections := parseSections r.html r.doc url,
        interactions := r.interactions, errors := r.errors }
    | .error e => scrapeFallback url e jsFullResult
  | .error e => scrapeFallback url e jsFullResult

/-! ## Pagination (`_js_scrape_for_interactions`, lines 203-231) -/

/-- One round of the scroll-and-paginate loop body as it affects
`(scrolls, pages_visited)`: the scroll always counts; `link` is the
`href` of the first "next" link when one was found and read successfully
(`none` covers: no link, a falsy href, and a swallowed per-step
exception).  A resolved URL already in `pages_visited` is neither
recorded nor navigated to; and because the URL is appended before the
`page.goto`, a failing navigation still leaves it recorded. -/
def paginateStep (url : String) (st : Nat × List String) (link : Option String) :
    Nat × List String :=
  match link with
  | none => (st.1 + 1, st.2)
  | some h =>
    let full := urljoinModel url h
    if full ∈ st.2 then (st.1 + 1, st.2) else (st.1 + 1, st.2 ++ [full])

/-- The `for i in range(3)` loop of `_js_scrape_for_interactions`:
`pages_visited` starts at `[url]`; pagination is attempted only on rounds
0 and 1 (`i < 2`); round 2 scrolls only. -/
def runPagination (url : String) (link0 link1 : Option String) : Nat × List String :=
  let st1 := paginateStep url (0, [url]) link0
  let st2 := paginateStep url st1 link1
  (st2.1 + 1, st2.2)

/-- The interaction log assembled at lines 227-231 from the accumulated
clicks, scroll count and visited pages. -/
def jsInteractionLog (url : String) (link0 link1 : Option String)
    (clicks : List String) : Interactions :=
  { clicks := clicks,
    scrolls := (runPagination url link0 link1).1,
    pages := (runPagination url link0 link1).2 }

/-! ## Concrete documents used by counterexamples and witnesses -/

/-- A 2010-character text payload. -/
def bigText : String := String.mk (List.replicate 2010 'a')

/-- An element whose serialization `<div>aaa...a</div>` is 2021
characters long. -/
def bigElem : Node := .elem "div" [] [.text bigText]

/-- A 200-character text payload. -/
def articleText : String := String.mk (List.replicate 200 'a')

/-- A page with a short `main` (5 characters) and a long `article` (200
characters): body text is 205 characters. -/
def mainShortDoc : Node :=
  .elem "html" []
    [.elem "body" []
      [.elem "main" [] [.text "short"],
       .elem "article" [] [.text articleText]]]

/-- A page carrying both a `<title>` and an `og:title` meta tag. -/
def ogTitleDoc : Node :=
  .elem "html" []
    [.elem "head" []
      [.elem "title" [] [.text "A"],
       .elem "meta" [("property", "og:title"), ("content", "B")] []],
     .elem "body" [] []]

/-- A plain page: a title with surrounding whitespace and no og: tags. -/
def plainTitleDoc : Node :=
  .elem "html" [("lang", "en-US")]
    [.elem "head" [] [.elem "title" [] [.text " Hi "]],
     .elem "body" [] [.text "x"]]

/-- A page whose only noise-like element carries `id="overlay"`. -/
def overlayIdDoc : Node :=
  .elem "html" []
    [.elem "body" [] [.elem "div" [("id", "overlay")] [.text "x"]]]

/-- A minimal page with a body and one paragraph. -/
def simpleDoc : Node :=
  .elem "html" []
    [.elem "head" [] [], .elem "body" [] [.elem "p" [] [.text "x"]]]

/-- The eight strings `_determine_type` can return. -/
def typeNames : List String :=
  ["nav", "footer", "section", "hero", "faq", "pricing", "grid", "list"]

/-! ## Helper lemmas -/

theorem strTake_length (s : String) (n : Nat) : (strTake s n).length = min n s.length := by
  have h : (strTake s n).length = (s.data.take n).length := rfl
  rw [h, List.length_take]
  rfl

theorem determineType_mem (t : String) (a : List (String × String)) :
    determineType t a ∈ typeNames := by
  simp only [determineType]
  split_ifs <;> simp [typeNames]

theorem extractSection_id (n : Node) (b : String) (i : Nat) :
    (extractSection n b i).id =
      determineType (sectionTagName n) (nodeAttrs n) ++ "-" ++ Nat.repr i := rfl

theorem extractSection_type (n : Node) (b : String) (i : Nat) :
    (extractSection n b i).type = determineType (sectionTagName n) (nodeAttrs n) := rfl

theorem extractSection_id_type (n : Node) (b : String) (i : Nat) :
    (extractSection n b i).id = (extractSection n b i).type ++ "-" ++ Nat.repr i := rfl

theorem extractSection_type_mem (n : Node) (b : String) (i : Nat) :
    (extractSection n b i).type ∈ typeNames := by
  rw [extractSection_type]
  exact determineType_mem _ _

/-- Distinct indices below 20 give distinct ids, whatever pair of the
eight section types is involved. -/
theorem sectionId_inj : ∀ t1 ∈ typeNames, ∀ t2 ∈ typeNames,
    ∀ i1 ∈ List.range 20, ∀ i2 ∈ List.range 20,
    i1 ≠ i2 → t1 ++ "-" ++ Nat.repr i1 ≠ t2 ++ "-" ++ Nat.repr i2 := by decide

theorem mem_numberFrom (b : String) :
    ∀ (cands : List (Option Node)) (i : Nat) (s : Section), s ∈ numberFrom b i cands →
      ∃ j, i ≤ j ∧ j < i + cands.length ∧
        s.id = s.type ++ "-" ++ Nat.repr j ∧ s.type ∈ typeNames := by
  intro cands
  induction cands with
  | nil => intro i s h; simp [numberFrom] at h
  | cons c rest ih =>
    intro i s h
    cases c with
    | none =>
      have h' : s ∈ numberFrom b (i + 1) rest := by simpa [numberFrom] using h
      obtain ⟨j, hj1, hj2, hj3, hj4⟩ := ih (i + 1) s h'
      exact ⟨j, by omega, by simp only [List.length_cons]; omega, hj3, hj4⟩
    | some e =>
      rw [numberFrom] at h
      rcases List.mem_cons.mp h with he | h'
      · subst he
        exact ⟨i, le_rfl, by simp only [List.length_cons]; omega,
          extractSection_id_type e b i, extractSection_type_mem e b i⟩
      · obtain ⟨j, hj1, hj2, hj3, hj4⟩ := ih (i + 1) s h'
        exact ⟨j, by omega, by simp only [List.length_cons]; omega, hj3, hj4⟩

theorem numberFrom_pairwise (b : String) :
    ∀ (cands : List (Option Node)) (i : Nat), i + cands.length ≤ 20 →
      List.Pairwise (fun s t : Section => s.id ≠ t.id) (numberFrom b i cands) := by
  intro cands
  induction cands with
  | nil => intro i _; simp [numberFrom]
  | cons c rest ih =>
    intro i hle
    simp only [List.length_cons] at hle
    cases c with
    | none => simpa [numberFrom] using ih (i + 1) (by omega)
    | some e =>
      rw [numberFrom]
      refine List.Pairwise.cons ?_ (ih (i + 1) (by omega))
      intro t ht
      obtain ⟨j, hj1, hj2, hj3, hj4⟩ := mem_numberFrom b rest (i + 1) t ht
      rw [extractSection_id_type e b i, hj3]
      exact sectionId_inj _ (extractSection_type_mem e b i) _ hj4
        i (List.mem_range.mpr (by omega)) j (List.mem_range.mpr (by omega)) (by omega)

theorem bodyFallback_isSome {doc : Node} (h : (findBody doc).isSome = true) :
    (bodyFallback doc).isSome = true := by
  obtain ⟨b0, hb0⟩ := Option.isSome_iff_exists.mp h
  unfold bodyFallback
  cases hc : cleanNode doc with
  | none => rw [hb0]; rfl
  | some c =>
    dsimp only
    cases hf : (allNodes c).find? (fun n => nodeTag n = some "body") with
    | none => rw [hb0]; rfl
    | some b => rfl

/-! ## Claims -/

/-- Claim C4 (corrected): for every element and every section extracted
from it, the content-block sizes respect their caps — at most 10
headings, 50 links, 20 images, 10 lists and 5000 characters of text —
and `rawHtml` is at most 2003 characters long: a serialization longer
than 2000 characters is cut to 2000 and the 3-character ellipsis marker
`"..."` is appended, so the stored string can reach 2003 characters,
not 2000 as claimed. -/
theorem c4_content_caps (n : Node) (b : String) (i : Nat) :
    (extractSection n b i).content.headings.length ≤ 10 ∧
    (extractSection n b i).content.links.length ≤ 50 ∧
    (extractSection n b i).content.images.length ≤ 20 ∧
    (extractSection n b i).content.lists.length ≤ 10 ∧
    (extractSection n b i).content.text.length ≤ 5000 ∧
    (extractSection n b i).rawHtml.length ≤ 2003 := by
  refine ⟨?_, ?_, ?_, ?_, ?_, ?_⟩
  · show ((_ : List String).take 10).length ≤ 10
    rw [List.length_take]; omega
  · show ((_ : List (String × String)).take 50).length ≤ 50
    rw [List.length_take]; omega
  · show ((_ : List (String × String)).take 20).length ≤ 20
    rw [List.length_take]; omega
  · show ((_ : List (List String)).take 10).length ≤ 10
    rw [List.length_take]; omega
  · show (if 5000 < (normalizeWs (nodeText n)).length then
        strTake (normalizeWs (nodeText n)) 5000 else normalizeWs (nodeText n)).length ≤ 5000
    split
    · rw [strTake_length]; omega
    · omega
  · show (if 2000 < (renderNode n).length then
        strTake (renderNode n) 2000 ++ "..." else renderNode n).length ≤ 2003
    split
    · rw [String.length_append, strTake_length]
      have h3 : ("..." : String).length = 3 := rfl
      rw [h3]; omega
    · omega

/-- Claim C4, counterexample to the statement as written: on an element
whose serialization is 2021 characters long, the stored `rawHtml` has
2003 characters — more than the claimed 2000-character bound. -/
theorem bigText_length : bigText.length = 2010 := by
  show (List.replicate 2010 'a').length = 2010
  rw [List.length_replicate]

theorem renderNode_bigElem_length : (renderNode bigElem).length = 2021 := by
  have h : renderNode bigElem =
      (((((("<" ++ "div") ++ renderAttrs []) ++ ">") ++
        renderList [Node.text bigText]) ++ "</") ++ "div") ++ ">" := rfl
  have h2 : renderList [Node.text bigText] = bigText ++ "" := rfl
  rw [h, h2]
  simp only [String.length_append, bigText_length]
  rfl

theorem extractSection_rawHtml (n : Node) (b : String) (i : Nat) :
    (extractSection n b i).rawHtml =
      (if 2000 < (renderNode n).length then
        strTake (renderNode n) 2000 ++ "..." else renderNode n) := rfl

theorem c4_rawhtml_exceeds_2000 :
    2000 < (extractSection bigElem "u" 0).rawHtml.length := by
  rw [extractSection_rawHtml, if_pos (by rw [renderNode_bigElem_length]; omega)]
  rw [String.length_append, strTake_length, renderNode_bigElem_length]
  have h3 : ("..." : String).length = 3 := rfl
  rw [h3]
  omega

/-- Claim C6 (confirmed): when the static fetch raises and the fallback
render fetch raises too, `scrape` still returns a document whose error
log is a fetch-phase error followed by a render-phase error, in that
order, and whose sections list is exactly the placeholder section of
type "unknown" and label "Empty Content". -/
theorem c6_double_failure_result (url e1 e2 : String) (jsInter : Except String JsOutcome) :
    (scrape url (Except.error e1) (Except.error e2) jsInter).errors =
      [⟨"Static scrape failed: " ++ e1, "fetch"⟩, ⟨"JS scrape failed: " ++ e2, "render"⟩] ∧
    ((scrape url (Except.error e1) (Except.error e2) jsInter).errors.map ScrapeError.phase) =
      ["fetch", "render"] ∧
    (scrape url (Except.error e1) (Except.error e2) jsInter).sections = [emptySection url] ∧
    (emptySection url).type = "unknown" ∧ (emptySection url).label = "Empty Content" :=
  ⟨rfl, rfl, rfl, rfl, rfl⟩

/-- Claim C8 (confirmed): a section's `truncated` flag is true exactly
when the serialized markup exceeded 2000 characters, and in that case
`rawHtml` is the first 2000 characters with the ellipsis marker `"..."`
appended (otherwise it is the full serialization). -/
theorem c8_truncation_iff (n : Node) (b : String) (i : Nat) :
    ((extractSection n b i).truncated = true ↔ 2000 < (renderNode n).length) ∧
    (2000 < (renderNode n).length →
      (extractSection n b i).rawHtml = strTake (renderNode n) 2000 ++ "...") ∧
    ((renderNode n).length ≤ 2000 → (extractSection n b i).rawHtml = renderNode n) := by
  refine ⟨?_, ?_, ?_⟩
  · show decide (2000 < (renderNode n).length) = true ↔ 2000 < (renderNode n).length
    exact decide_eq_true_iff
  · intro h
    show (if 2000 < (renderNode n).length then
        strTake (renderNode n) 2000 ++ "..." else renderNode n) = _
    rw [if_pos h]
  · intro h
    show (if 2000 < (renderNode n).length then
        strTake (renderNode n) 2000 ++ "..." else renderNode n) = _
    rw [if_neg (by omega)]

/-- Claim C8, witness: on the concrete 2021-character element the flag is
set and the stored snapshot is the 2000-character cut plus the marker. -/
theorem c8_truncation_iff_witness :
    (extractSection bigElem "u" 0).truncated = true ∧
    (extractSection bigElem "u" 0).rawHtml = strTake (renderNode bigElem) 2000 ++ "..." :=
  ⟨(c8_truncation_iff bigElem "u" 0).1.mpr (by rw [renderNode_bigElem_length]; omega),
   (c8_truncation_iff bigElem "u" 0).2.1 (by rw [renderNode_bigElem_length]; omega)⟩

theorem hasMainContent_eq_main {doc m : Node} (hm : firstTag "main" doc = some m) :
    hasMainContent doc = decide (100 < (strTrim (nodeText m)).length) := by
  unfold hasMainContent
  rw [hm]

theorem hasMainContent_eq_article {doc a : Node} (hm : firstTag "main" doc = none)
    (ha : firstTag "article" doc = some a) :
    hasMainContent doc = decide (100 < (strTrim (nodeText a)).length) := by
  unfold hasMainContent
  rw [hm, ha]

theorem hasMainContent_eq_false {doc : Node} (hm : firstTag "main" doc = none)
    (ha : firstTag "article" doc = none) : hasMainContent doc = false := by
  unfold hasMainContent
  rw [hm, ha]

/-- Claim C2 (corrected, amended form): after a successful static fetch
the code invokes the full render fetch exactly when the stripped body
text is under 200 characters or `_has_main_content` is false, and the
interaction-simulation render in every other case — the static result is
never returned directly.  But "has main content" is *not* "some `main`
or `article` landmark has more than 100 characters": when a `main`
element exists, its text length alone decides, and an `article` is only
consulted when no `main` exists at all. -/
theorem c2_fetch_path_selection (doc : Node) :
    (selectPath doc = FetchPath.fullRender ↔
      ((strTrim (bodyTextOf doc)).length < 200 ∨ hasMainContent doc = false)) ∧
    (selectPath doc = FetchPath.renderWithInteractions ↔
      (200 ≤ (strTrim (bodyTextOf doc)).length ∧ hasMainContent doc = true)) ∧
    selectPath doc ≠ FetchPath.staticOnly ∧
    (∀ m, firstTag "main" doc = some m →
      (hasMainContent doc = true ↔ 100 < (strTrim (nodeText m)).length)) ∧
    (firstTag "main" doc = none → ∀ a, firstTag "article" doc = some a →
      (hasMainContent doc = true ↔ 100 < (strTrim (nodeText a)).length)) ∧
    (firstTag "main" doc = none → firstTag "article" doc = none →
      hasMainContent doc = false) := by
  refine ⟨?_, ?_, ?_, ?_, ?_, ?_⟩
  · unfold selectPath
    split
    · rename_i h
      simp only [Bool.or_eq_true, decide_eq_true_eq, Bool.not_eq_true'] at h
      simp [h]
    · rename_i h
      simp only [Bool.or_eq_true, decide_eq_true_eq, Bool.not_eq_true'] at h
      push_neg at h
      constructor
      · intro hcontra; cases hcontra
      · intro hor
        rcases hor with h1 | h2
        · omega
        · exact absurd h2 (by simp [h.2])
  · unfold selectPath
    split
    · rename_i h
      simp only [Bool.or_eq_true, decide_eq_true_eq, Bool.not_eq_true'] at h
      constructor
      · intro hcontra; cases hcontra
      · intro hand
        rcases h with h1 | h2
        · omega
        · rw [hand.2] at h2; cases h2
    · rename_i h
      simp only [Bool.or_eq_true, decide_eq_true_eq, Bool.not_eq_true'] at h
      push_neg at h
      constructor
      · intro _; exact ⟨by omega, by simpa using h.2⟩
      · intro _; rfl
  · unfold selectPath
    split <;> simp
  · intro m hm
    rw [hasMainContent_eq_main hm]
    exact decide_eq_true_iff
  · intro hm a ha
    rw [hasMainContent_eq_article hm ha]
    exact decide_eq_true_iff
  · intro hm ha
    exact hasMainContent_eq_false hm ha

set_option maxRecDepth 4000 in
/-- Claim C2, witness: on the concrete page with a short `main` the
selector takes the full-render path. -/
theorem c2_fetch_path_selection_witness :
    selectPath mainShortDoc = FetchPath.fullRender :=
  (c2_fetch_path_selection mainShortDoc).1.mpr (Or.inr (by decide))

set_option maxRecDepth 4000 in
/-- Claim C2, counterexample to the statement as written: a page whose
body text is 205 characters and which contains an `article` landmark
with 200 characters of text — so the claim's reading of "has main
content" holds and it predicts the interaction-simulation path — yet the
code selects the full render fetch, because the 5-character `main`
short-circuits the landmark check. -/
theorem c2_fullrender_despite_article :
    200 ≤ (strTrim (bodyTextOf mainShortDoc)).length ∧
    (Node.elem "article" [] [Node.text articleText]) ∈ allNodes mainShortDoc ∧
    100 < (strTrim (nodeText (Node.elem "article" [] [Node.text articleText]))).length ∧
    selectPath mainShortDoc = FetchPath.fullRender := by
  refine ⟨by decide, by decide, by decide, by decide⟩

mutual

theorem cleanNode_no_noise : ∀ (d c n : Node), cleanNode d = some c → n ∈ allNodes c →
    noiseOf n = false
  | .text s, _, n, hd, hn => by
    rw [cleanNode] at hd
    cases hd
    rw [allNodes] at hn
    rw [List.mem_singleton.mp hn]
    rfl
  | .elem t a cs, _, n, hd, hn => by
    rw [cleanNode] at hd
    split at hd
    · cases hd
    · cases hd
      rw [allNodes] at hn
      rcases List.mem_cons.mp hn with h1 | h2
      · rw [h1]
        simpa [noiseOf] using ‹¬noiseMatch a = true›
      · exact cleanList_no_noise cs n h2

theorem cleanList_no_noise : ∀ (ds : List Node) (n : Node),
    n ∈ allNodesList (cleanList ds) → noiseOf n = false
  | [], n, hn => by rw [cleanList, allNodesList] at hn; cases hn
  | d :: rest, n, hn => by
    rw [cleanList] at hn
    cases hc : cleanNode d with
    | some c2 =>
      rw [hc] at hn
      rw [allNodesList] at hn
      rcases List.mem_append.mp hn with h1 | h2
      · exact cleanNode_no_noise d c2 n hc h1
      · exact cleanList_no_noise rest n h2
    | none =>
      rw [hc] at hn
      exact cleanList_no_noise rest n hn

end

/-- Claim C7 (corrected, amended form): after noise removal no element of
the remaining tree matches the noise predicate the code actually encodes:
class containing one of cookie/banner/modal/popup/overlay, or id
containing one of cookie/banner/modal/popup — `overlay` is never checked
against the id attribute, and matching is a literal (case-sensitive)
substring test. -/
theorem c7_noise_removal_sound (doc n : Node) (h : n ∈ cleanedNodes doc) :
    noiseOf n = false := by
  unfold cleanedNodes at h
  cases hc : cleanNode doc with
  | some c =>
    rw [hc] at h
    exact cleanNode_no_noise doc c n hc h
  | none => rw [hc] at h; cases h

/-- Claim C7, witness: in a concrete cleaned document the surviving text
node indeed carries no noise marker. -/
theorem c7_noise_removal_sound_witness : noiseOf (Node.text "x") = false :=
  c7_noise_removal_sound (Node.elem "html" [] [Node.text "x"]) (Node.text "x") (by decide)

/-- Claim C7, counterexample to the statement as written: an element
whose `id` attribute is exactly `"overlay"` — which the claim says must
be deleted — survives noise removal unchanged, because the code's
`noise_selectors` list has `[class*="overlay"]` but no `[id*="overlay"]`
entry. -/
theorem c7_overlay_id_survives :
    cleanNode overlayIdDoc = some overlayIdDoc ∧
    containsSub "overlay" "overlay" = true := ⟨by decide, by decide⟩

/-- Claim C3 (corrected, amended form): the static and live metadata
extractors share the language and canonical rules, but only the static
path applies the `og:title`/`og:description` overrides, and the live
path takes the document title (whitespace-stripped and collapsed) where
the static path strips the `<title>` text.  The two records therefore
agree exactly on pages with no `og:title` and no `og:description` meta
tags whose title text is unchanged by internal whitespace collapsing. -/
theorem c3_meta_extractors_agree (doc : Node)
    (hot : docCssFirst isOgTitle doc = none)
    (hod : docCssFirst isOgDesc doc = none)
    (ht : normalizeWs (titleTextOf doc) = strTrim (titleTextOf doc)) :
    extractMetaStatic doc = extractMetaJs doc := by
  simp only [extractMetaStatic, extractMetaJs, hot, hod]
  rw [ht]
  unfold titleTextOf
  cases htt : firstTag "title" doc with
  | some t => rfl
  | none => rfl

/-- Claim C3, witness: on a plain page (title with surrounding
whitespace, a `lang` attribute, no og: tags) the two extractors return
the same record. -/
theorem c3_meta_extractors_agree_witness :
    extractMetaStatic plainTitleDoc = extractMetaJs plainTitleDoc :=
  c3_meta_extractors_agree plainTitleDoc (by decide) (by decide) (by decide)

/-- Claim C3, counterexample to the statement as written: on a page with
`<title>A</title>` and `og:title` content `"B"`, the static extractor
applies the og: override ("B") while the live extractor returns the
document title ("A") — the two call paths do not follow the same
precedence rules. -/
theorem c3_meta_paths_differ :
    extractMetaStatic ogTitleDoc ≠ extractMetaJs ogTitleDoc ∧
    (extractMetaStatic ogTitleDoc).title = "B" ∧
    (extractMetaJs ogTitleDoc).title = "A" :=
  ⟨by decide, by decide, by decide⟩

/-- The pagination invariants are preserved by one round of the loop:
the head stays the origin, no duplicate is ever appended (the membership
guard), and the list grows by at most one entry. -/
theorem paginateStep_pages (url : String) (st : Nat × List String) (link : Option String)
    {k : Nat} (h1 : st.2.head? = some url) (h2 : st.2.Nodup) (h3 : st.2.length ≤ k) :
    (paginateStep url st link).2.head? = some url ∧
    (paginateStep url st link).2.Nodup ∧
    (paginateStep url st link).2.length ≤ k + 1 := by
  cases link with
  | none => exact ⟨h1, h2, by show st.2.length ≤ k + 1; omega⟩
  | some h =>
    simp only [paginateStep]
    split_ifs with hin
    · exact ⟨h1, h2, by show st.2.length ≤ k + 1; omega⟩
    · refine ⟨?_, ?_, ?_⟩
      · rw [List.head?_append, h1]
        rfl
      · rw [show st.2 ++ [urljoinModel url h] = st.2.concat (urljoinModel url h) from
          (List.concat_eq_append _ _).symm]
        exact h2.concat hin
      · rw [List.length_append]
        simp only [List.length_singleton]
        omega

/-- Claim C9 (confirmed): the visited-pages list of the interaction log
starts with the origin URL, never contains a duplicate (a next-page link
resolving to an already-visited URL is neither followed nor recorded),
and never exceeds 4 entries (the loop in fact visits at most 3 pages:
the origin plus one link per round on rounds 0 and 1). -/
theorem c9_pagination_invariants (url : String) (link0 link1 : Option String)
    (clicks : List String) :
    (jsInteractionLog url link0 link1 clicks).pages.head? = some url ∧
    (jsInteractionLog url link0 link1 clicks).pages.Nodup ∧
    (jsInteractionLog url link0 link1 clicks).pages.length ≤ 4 := by
  have hpages : (jsInteractionLog url link0 link1 clicks).pages =
      (paginateStep url (paginateStep url (0, [url]) link0) link1).2 := rfl
  rw [hpages]
  have h0 := paginateStep_pages url (0, [url]) link0 rfl (by simp)
    (show ([url] : List String).length ≤ 2 by simp)
  have h1 := paginateStep_pages url (paginateStep url (0, [url]) link0) link1
    h0.1 h0.2.1 h0.2.2
  exact ⟨h1.1, h1.2.1, h1.2.2⟩

/-- Claim C1 (confirmed): for blank (empty or whitespace-only) markup the
segmenter returns exactly the single placeholder section, and for any
other markup it returns at least one section.  The hypothesis records the
HTML5 parser guarantee that every parsed document — of any input string —
contains a `body` element, which backs the segmenter's final fallback. -/
theorem c1_parse_sections_nonempty (html : String) (doc : Node) (baseUrl : String)
    (hbody : (findBody doc).isSome = true) :
    parseSections html doc baseUrl ≠ [] ∧
    ((strTrim html).isEmpty = true → parseSections html doc baseUrl = [emptySection baseUrl]) := by
  have hfb := bodyFallback_isSome hbody
  obtain ⟨b, hb⟩ := Option.isSome_iff_exists.mp hfb
  constructor
  · simp only [parseSections]
    split
    · simp
    · repeat' split
      all_goals simp_all
  · intro hblank
    simp only [parseSections]
    rw [if_pos hblank]

/-- Claim C1, witness: a one-paragraph page yields a non-empty section
list, and the blank-markup clause holds vacuously. -/
theorem c1_parse_sections_nonempty_witness :
    parseSections "<p>x</p>" simpleDoc "u" ≠ [] ∧
    ((strTrim "<p>x</p>").isEmpty = true →
      parseSections "<p>x</p>" simpleDoc "u" = [emptySection "u"]) :=
  c1_parse_sections_nonempty "<p>x</p>" simpleDoc "u" (by decide)

/-- Claim C5 (corrected, amended form): the `id` values of a scrape
result's sections are pairwise unique, and every non-placeholder section
has `id = "{type}-{idx}"` where `idx` is the section's index in the
capped candidate-element list (which equals its position in `sections`
whenever no candidate is skipped) — but the placeholder section breaks
the id scheme: its id is `"empty-0"` while its type is `"unknown"`. -/
theorem c5_section_ids (html : String) (doc : Node) (baseUrl : String) :
    List.Pairwise (fun s t : Section => s.id ≠ t.id) (parseSections html doc baseUrl) ∧
    ∀ s ∈ parseSections html doc baseUrl,
      (s.id = "empty-0" ∧ s.type = "unknown") ∨
      ∃ j, j < 20 ∧ s.id = s.type ++ "-" ++ Nat.repr j := by
  simp only [parseSections]
  split
  · constructor
    · exact List.pairwise_singleton _ _
    · intro s hs
      rw [List.mem_singleton.mp hs]
      left
      exact ⟨rfl, rfl⟩
  · repeat' split
    all_goals
      first
      | exact ⟨List.pairwise_singleton _ _, by
          intro s hs
          rw [List.mem_singleton.mp hs]
          exact Or.inr ⟨0, by omega, extractSection_id_type _ baseUrl 0⟩⟩
      | exact ⟨List.Pairwise.nil, by intro s hs; cases hs⟩
      | (refine ⟨numberFrom_pairwise baseUrl _ 0 (by rw [List.length_take]; omega), ?_⟩
         intro s hs
         obtain ⟨j, hj1, hj2, hj3, hj4⟩ := mem_numberFrom baseUrl _ 0 s hs
         rw [List.length_take] at hj2
         exact Or.inr ⟨j, by omega, hj3⟩)

/-- Claim C5, witness: on a concrete one-paragraph page the ids are
pairwise unique and follow the type-index scheme. -/
theorem c5_section_ids_witness :
    List.Pairwise (fun s t : Section => s.id ≠ t.id) (parseSections "<p>x</p>" simpleDoc "u") ∧
    ∀ s ∈ parseSections "<p>x</p>" simpleDoc "u",
      (s.id = "empty-0" ∧ s.type = "unknown") ∨
      ∃ j, j < 20 ∧ s.id = s.type ++ "-" ++ Nat.repr j :=
  c5_section_ids "<p>x</p>" simpleDoc "u"

/-- Claim C5, counterexample to the statement as written: the placeholder
section has type `"unknown"` but id `"empty-0"`, not the claimed
`"{type}-{index}"` form (`"unknown-0"`). -/
theorem c5_placeholder_id_mismatch :
    parseSections "" emptyDoc "u" = [emptySection "u"] ∧
    (emptySection "u").type = "unknown" ∧
    (emptySection "u").id = "empty-0" ∧
    (emptySection "u").id ≠ (emptySection "u").type ++ "-" ++ Nat.repr 0 :=
  ⟨rfl, rfl, rfl, by decide⟩

/-- Claim C10 (confirmed): when both fetch paths fail, the returned
metadata is the fixed default record, which is also what the static
extractor yields on the empty document. -/
theorem c10_default_meta (url e1 e2 : String) (jsInter : Except String JsOutcome) :
    (scrape url (Except.error e1) (Except.error e2) jsInter).meta =
      { title := "", description := "", language := "en", canonical := none } ∧
    extractMetaStatic emptyDoc =
      { title := "", description := "", language := "en", canonical := none } :=
  ⟨rfl, rfl⟩

end ScraperModel
